import Mathlib

/-!
Verification of the q2-bbduk plugin's command construction and driver logic
(`q2_bbduk/_trim.py` and `q2_bbduk/plugin_setup.py`).

Python strings are embedded as `List Char`, so a command is a `List Str` and
a batch of commands a `List (List Str)`.  Numeric parameters that Python holds
as `int` are embedded as `Int`; the `trimq` parameter is a Python `float` that
is only ever interpolated into a flag string, so it is embedded directly by its
decimal rendering (a `Str`).  Optional parameters (`mink`, `ref`, `literal`,
`kmask`, `stats_fp`, reverse-read paths) are `Option` values; Python's
truthiness test `if s:` on an optional string is `s` being present and
non-empty, and on an `int` it is the value being non-zero.
-/

/-- A Python string, embedded as its list of characters. -/
abbrev Str := List Char

/-- Character list of a Lean string literal (Python string constant). -/
def chars (s : String) : Str := s.data

/-- `os.path.basename`: the part of a path after the last `/`. -/
def basename (p : Str) : Str :=
  ((p.reverse.takeWhile (fun c => c ≠ '/')).reverse)

/-- Path join (`pathlib`'s `/` operator / `os.path.join` with a relative
file name): directory, separator, file name. -/
def joinPath (d f : Str) : Str := d ++ '/' :: f

/-- The key of a command-line flag: the characters before the first `=`
(the whole string when it holds no `=`). -/
def flagKey (s : Str) : Str := s.takeWhile (fun c => c ≠ '=')

/-- `cmd` holds some flag whose key is `k`. -/
abbrev hasKey (cmd : List Str) (k : Str) : Prop := ∃ e ∈ cmd, flagKey e = k

/-- The `_trim_defaults` dictionary of `_trim.py`: one field per entry, with
the dictionary's default values. -/
structure TrimParams where
  threads : Int
  k : Int
  ktrim : Str
  mink : Option Int
  qtrim : Str
  trimq : Str
  minlength : Int
  tpe : Bool
  tbo : Bool
  minoverlap : Int
  ref : Option Str
  literal : Option Str
  forcetrimleft : Int
  forcetrimright : Int
  kmask : Option Str
  overwrite : Bool
deriving DecidableEq

/-- `_trim_defaults` of `_trim.py` (with `trimq = 6.0` rendered). -/
def _trim_defaults : TrimParams :=
  { threads := 1
    k := 27
    ktrim := chars "f"
    mink := none
    qtrim := chars "f"
    trimq := chars "6.0"
    minlength := 10
    tpe := false
    tbo := false
    minoverlap := 14
    ref := none
    literal := none
    forcetrimleft := 0
    forcetrimright := 0
    kmask := none
    overwrite := true }

/-- `if s: cmd += [f'key={s}']` for an optional string parameter: the flag
is emitted exactly when the value is present and non-empty (Python string
truthiness). -/
def optStrFlag (key : Str) (o : Option Str) : List Str :=
  match o with
  | some s => if s = [] then [] else [key ++ '=' :: s]
  | none => []

/-- `if mink is not None and mink > 0: cmd += [f'mink={mink}']`. -/
def minkFlag (o : Option Int) : List Str :=
  match o with
  | some m => if 0 < m then [chars "mink=" ++ chars (toString m)] else []
  | none => []

/-- `if n and n > 0: cmd += [f'key={n}']` for an int parameter (Python int
truthiness is being non-zero). -/
def posIntFlag (key : Str) (n : Int) : List Str :=
  if n ≠ 0 ∧ 0 < n then [key ++ '=' :: chars (toString n)] else []

/-- The `in2 is not None and out2 is not None` block of `_build_bbduk_cmd`,
with its nested `tpe` / `tbo` appends. -/
def pairBlock (in2 out2 : Option Str) (tpe tbo : Bool) (minoverlap : Int) :
    List Str :=
  match in2, out2 with
  | some i2, some o2 =>
      [chars "in2=" ++ i2, chars "out2=" ++ o2]
      ++ (if tpe then [chars "tpe=t"] else [])
      ++ (if tbo then
            [chars "tbo=t", chars "minoverlap=" ++ chars (toString minoverlap)]
          else [])
  | _, _ => []

/-- `_build_bbduk_cmd` of `_trim.py`.  The fixed list comes first; each
conditional block mirrors one `if`-guarded `cmd += [...]` of the source,
through the block helpers above. -/
def _build_bbduk_cmd (in1 out1 : Str) (in2 out2 : Option Str)
    (p : TrimParams) (stats_fp : Option Str) : List Str :=
  [chars "bbduk.sh",
   chars "in=" ++ in1,
   chars "out=" ++ out1,
   chars "k=" ++ chars (toString p.k),
   chars "ktrim=" ++ p.ktrim,
   chars "qtrim=" ++ p.qtrim,
   chars "trimq=" ++ p.trimq,
   chars "minlength=" ++ chars (toString p.minlength),
   chars "threads=" ++ chars (toString p.threads),
   chars "overwrite=" ++ (if p.overwrite then chars "t" else chars "f"),
   chars "ziplevel=2",
   chars "ordered=f"]
  ++ minkFlag p.mink
  ++ pairBlock in2 out2 p.tpe p.tbo p.minoverlap
  ++ optStrFlag (chars "ref") p.ref
  ++ optStrFlag (chars "literal") p.literal
  ++ posIntFlag (chars "forcetrimleft") p.forcetrimleft
  ++ posIntFlag (chars "forcetrimright") p.forcetrimright
  ++ optStrFlag (chars "kmask") p.kmask
  ++ optStrFlag (chars "stats") stats_fp

/-- `run_commands` of `_trim.py`: each command is run in order with
`check=True`, so a non-zero exit raises and stops the loop.  The subprocess
layer is abstracted by `exitCode`, the exit status of each command.  The
result is the list of commands actually invoked (in order) together with
`true` when the loop completed and `false` when it raised. -/
def run_commands (exitCode : List Str → Int) :
    List (List Str) → List (List Str) × Bool
  | [] => ([], true)
  | c :: cs =>
      if exitCode c = 0 then
        let r := run_commands exitCode cs
        (c :: r.1, r.2)
      else ([c], false)

/-- `trim_single` of `_trim.py`, as the batch of commands it accumulates
(one per manifest row) before `run_commands` is called.  `outDir` is the
fresh output container's path, `td` the temporary stats directory; each
row's output keeps the input's basename.  Parameters not in the function's
signature stay at `_trim_defaults`. -/
def trim_single (outDir td : Str) (manifest : List Str)
    (k : Int) (ktrim : Str) (mink : Option Int) (qtrim : Str) (trimq : Str)
    (minlength : Int) (ref : Option Str) (literal : Option Str)
    (forcetrimleft : Int) (forcetrimright : Int) (kmask : Option Str)
    (threads : Int) : List (List Str) :=
  manifest.map (fun fwd =>
    _build_bbduk_cmd fwd (joinPath outDir (basename fwd)) none none
      { _trim_defaults with
          threads := threads, k := k, ktrim := ktrim, mink := mink,
          qtrim := qtrim, trimq := trimq, minlength := minlength,
          ref := ref, literal := literal,
          forcetrimleft := forcetrimleft, forcetrimright := forcetrimright,
          kmask := kmask }
      (some (joinPath td (basename fwd ++ chars ".bbduk.stats.txt"))))

/-- `trim_paired` of `_trim.py`, as the batch of commands it accumulates:
one command per manifest row `(fwd, rev)`, with both input paths and both
output paths, the outputs keeping the inputs' basenames. -/
def trim_paired (outDir td : Str) (manifest : List (Str × Str))
    (k : Int) (ktrim : Str) (mink : Option Int) (qtrim : Str) (trimq : Str)
    (minlength : Int) (tpe : Bool) (tbo : Bool) (minoverlap : Int)
    (ref : Option Str) (literal : Option Str)
    (forcetrimleft : Int) (forcetrimright : Int) (kmask : Option Str)
    (threads : Int) : List (List Str) :=
  manifest.map (fun row =>
    _build_bbduk_cmd row.1 (joinPath outDir (basename row.1))
      (some row.2) (some (joinPath outDir (basename row.2)))
      { _trim_defaults with
          threads := threads, k := k, ktrim := ktrim, mink := mink,
          qtrim := qtrim, trimq := trimq, minlength := minlength,
          tpe := tpe, tbo := tbo, minoverlap := minoverlap,
          ref := ref, literal := literal,
          forcetrimleft := forcetrimleft, forcetrimright := forcetrimright,
          kmask := kmask }
      (some (joinPath td (basename row.1 ++ chars ".bbduk.stats.txt"))))

/-! ## Flag keys -/

theorem flagKey_keyval (k v : Str) (h : '=' ∉ k) : flagKey (k ++ '=' :: v) = k := by
  induction k with
  | nil => simp [flagKey, List.takeWhile]
  | cons c cs ih =>
      simp only [List.mem_cons, not_or] at h
      simp [flagKey, List.takeWhile, Ne.symm h.1] at ih ⊢
      exact ih h.2

theorem flagKey_in (v : Str) : flagKey (chars "in=" ++ v) = chars "in" := by
  rw [show chars "in=" ++ v = chars "in" ++ '=' :: v from rfl, flagKey_keyval] ; decide

theorem flagKey_out (v : Str) : flagKey (chars "out=" ++ v) = chars "out" := by
  rw [show chars "out=" ++ v = chars "out" ++ '=' :: v from rfl, flagKey_keyval] ; decide

theorem flagKey_k (v : Str) : flagKey (chars "k=" ++ v) = chars "k" := by
  rw [show chars "k=" ++ v = chars "k" ++ '=' :: v from rfl, flagKey_keyval] ; decide

theorem flagKey_ktrim (v : Str) : flagKey (chars "ktrim=" ++ v) = chars "ktrim" := by
  rw [show chars "ktrim=" ++ v = chars "ktrim" ++ '=' :: v from rfl, flagKey_keyval] ; decide

theorem flagKey_qtrim (v : Str) : flagKey (chars "qtrim=" ++ v) = chars "qtrim" := by
  rw [show chars "qtrim=" ++ v = chars "qtrim" ++ '=' :: v from rfl, flagKey_keyval] ; decide

theorem flagKey_trimq (v : Str) : flagKey (chars "trimq=" ++ v) = chars "trimq" := by
  rw [show chars "trimq=" ++ v = chars "trimq" ++ '=' :: v from rfl, flagKey_keyval] ; decide

theorem flagKey_minlength (v : Str) :
    flagKey (chars "minlength=" ++ v) = chars "minlength" := by
  rw [show chars "minlength=" ++ v = chars "minlength" ++ '=' :: v from rfl,
    flagKey_keyval] ; decide

theorem flagKey_threads (v : Str) : flagKey (chars "threads=" ++ v) = chars "threads" := by
  rw [show chars "threads=" ++ v = chars "threads" ++ '=' :: v from rfl, flagKey_keyval]
  decide

theorem flagKey_overwrite (v : Str) :
    flagKey (chars "overwrite=" ++ v) = chars "overwrite" := by
  rw [show chars "overwrite=" ++ v = chars "overwrite" ++ '=' :: v from rfl,
    flagKey_keyval] ; decide

theorem flagKey_mink (v : Str) : flagKey (chars "mink=" ++ v) = chars "mink" := by
  rw [show chars "mink=" ++ v = chars "mink" ++ '=' :: v from rfl, flagKey_keyval] ; decide

theorem flagKey_in2 (v : Str) : flagKey (chars "in2=" ++ v) = chars "in2" := by
  rw [show chars "in2=" ++ v = chars "in2" ++ '=' :: v from rfl, flagKey_keyval] ; decide

theorem flagKey_out2 (v : Str) : flagKey (chars "out2=" ++ v) = chars "out2" := by
  rw [show chars "out2=" ++ v = chars "out2" ++ '=' :: v from rfl, flagKey_keyval] ; decide

theorem flagKey_minoverlap (v : Str) :
    flagKey (chars "minoverlap=" ++ v) = chars "minoverlap" := by
  rw [show chars "minoverlap=" ++ v = chars "minoverlap" ++ '=' :: v from rfl,
    flagKey_keyval] ; decide

theorem flagKey_ref (v : Str) : flagKey (chars "ref=" ++ v) = chars "ref" := by
  rw [show chars "ref=" ++ v = chars "ref" ++ '=' :: v from rfl, flagKey_keyval] ; decide

theorem flagKey_lit (v : Str) : flagKey (chars "literal=" ++ v) = chars "literal" := by
  rw [show chars "literal=" ++ v = chars "literal" ++ '=' :: v from rfl, flagKey_keyval]
  decide

theorem flagKey_ftl (v : Str) :
    flagKey (chars "forcetrimleft=" ++ v) = chars "forcetrimleft" := by
  rw [show chars "forcetrimleft=" ++ v = chars "forcetrimleft" ++ '=' :: v from rfl,
    flagKey_keyval] ; decide

theorem flagKey_ftr (v : Str) :
    flagKey (chars "forcetrimright=" ++ v) = chars "forcetrimright" := by
  rw [show chars "forcetrimright=" ++ v = chars "forcetrimright" ++ '=' :: v from rfl,
    flagKey_keyval] ; decide

theorem flagKey_kmask (v : Str) : flagKey (chars "kmask=" ++ v) = chars "kmask" := by
  rw [show chars "kmask=" ++ v = chars "kmask" ++ '=' :: v from rfl, flagKey_keyval]
  decide

theorem flagKey_stats (v : Str) : flagKey (chars "stats=" ++ v) = chars "stats" := by
  rw [show chars "stats=" ++ v = chars "stats" ++ '=' :: v from rfl, flagKey_keyval]
  decide

theorem flagKey_bbduk : flagKey (chars "bbduk.sh") = chars "bbduk.sh" := by decide

theorem flagKey_ziplevel : flagKey (chars "ziplevel=2") = chars "ziplevel" := by decide

theorem flagKey_ordered : flagKey (chars "ordered=f") = chars "ordered" := by decide

theorem flagKey_tpe : flagKey (chars "tpe=t") = chars "tpe" := by decide

theorem flagKey_tbo : flagKey (chars "tbo=t") = chars "tbo" := by decide

/-- The keys of the twelve unconditional flags, in emission order. -/
def fixedKeys : List Str :=
  [chars "bbduk.sh", chars "in", chars "out", chars "k", chars "ktrim",
   chars "qtrim", chars "trimq", chars "minlength", chars "threads",
   chars "overwrite", chars "ziplevel", chars "ordered"]

/-- Truthiness of an optional Python string: present and non-empty. -/
def truthyS (o : Option Str) : Bool :=
  match o with
  | some s => !s.isEmpty
  | none => false

/-- The `mink is not None and mink > 0` guard. -/
def minkPos (o : Option Int) : Bool :=
  match o with
  | some m => decide (0 < m)
  | none => false

theorem optStrFlag_keys (key : Str) (o : Option Str) (h : '=' ∉ key) :
    (optStrFlag key o).map flagKey = if truthyS o then [key] else [] := by
  rcases o with _ | s
  · rfl
  · by_cases hs : s = [] <;>
      simp [optStrFlag, truthyS, hs, flagKey_keyval _ _ h, List.isEmpty_iff]

theorem minkFlag_keys (o : Option Int) :
    (minkFlag o).map flagKey = if minkPos o then [chars "mink"] else [] := by
  rcases o with _ | m
  · rfl
  · by_cases hm : 0 < m <;> simp [minkFlag, minkPos, hm, flagKey_mink]

theorem posIntFlag_keys (key : Str) (n : Int) (h : '=' ∉ key) :
    (posIntFlag key n).map flagKey = if n ≠ 0 ∧ 0 < n then [key] else [] := by
  by_cases hc : n ≠ 0 ∧ 0 < n <;> simp [posIntFlag, hc, flagKey_keyval _ _ h]

theorem pairBlock_keys (in2 out2 : Option Str) (tpe tbo : Bool) (mo : Int) :
    (pairBlock in2 out2 tpe tbo mo).map flagKey =
      if in2.isSome ∧ out2.isSome then
        [chars "in2", chars "out2"]
        ++ (if tpe then [chars "tpe"] else [])
        ++ (if tbo then [chars "tbo", chars "minoverlap"] else [])
      else [] := by
  rcases in2 with _ | i2 <;> rcases out2 with _ | o2 <;>
    simp [pairBlock, apply_ite (List.map flagKey), flagKey_in2, flagKey_out2,
      flagKey_tpe, flagKey_tbo, flagKey_minoverlap]

/-- The flag keys of a built command: the twelve unconditional keys followed
by the key of each conditional block that fired, independently of the
parameter values interpolated into the flags. -/
theorem _build_bbduk_cmd_keys (in1 out1 : Str) (in2 out2 : Option Str)
    (p : TrimParams) (stats_fp : Option Str) :
    (_build_bbduk_cmd in1 out1 in2 out2 p stats_fp).map flagKey =
    fixedKeys
    ++ (if minkPos p.mink then [chars "mink"] else [])
    ++ (if in2.isSome ∧ out2.isSome then
          [chars "in2", chars "out2"]
          ++ (if p.tpe then [chars "tpe"] else [])
          ++ (if p.tbo then [chars "tbo", chars "minoverlap"] else [])
        else [])
    ++ (if truthyS p.ref then [chars "ref"] else [])
    ++ (if truthyS p.literal then [chars "literal"] else [])
    ++ (if p.forcetrimleft ≠ 0 ∧ 0 < p.forcetrimleft then [chars "forcetrimleft"] else [])
    ++ (if p.forcetrimright ≠ 0 ∧ 0 < p.forcetrimright then [chars "forcetrimright"] else [])
    ++ (if truthyS p.kmask then [chars "kmask"] else [])
    ++ (if truthyS stats_fp then [chars "stats"] else []) := by
  have hr : '=' ∉ chars "ref" := by decide
  have hl : '=' ∉ chars "literal" := by decide
  have hftl : '=' ∉ chars "forcetrimleft" := by decide
  have hftr : '=' ∉ chars "forcetrimright" := by decide
  have hk : '=' ∉ chars "kmask" := by decide
  have hst : '=' ∉ chars "stats" := by decide
  simp only [_build_bbduk_cmd, List.map_append, List.map_cons, List.map_nil,
    optStrFlag_keys _ _ hr, optStrFlag_keys _ _ hl, optStrFlag_keys _ _ hk,
    optStrFlag_keys _ _ hst, minkFlag_keys, posIntFlag_keys _ _ hftl,
    posIntFlag_keys _ _ hftr, pairBlock_keys, flagKey_in, flagKey_out,
    flagKey_k, flagKey_ktrim, flagKey_qtrim, flagKey_trimq, flagKey_minlength,
    flagKey_threads, flagKey_overwrite, flagKey_bbduk, flagKey_ziplevel,
    flagKey_ordered, fixedKeys]

/-! ## Generic list helpers -/

theorem mem_ite_nil {α : Type} (c : Prop) [Decidable c] (l : List α) (a : α) :
    (a ∈ if c then l else []) ↔ c ∧ a ∈ l := by
  by_cases h : c
  · simp [h]
  · simp [h]

theorem count_ite_nil (c : Prop) [Decidable c]
    (l : List Str) (a : Str) (h : a ∉ l) : (if c then l else []).count a = 0 := by
  by_cases hc : c
  · simp [hc, List.count_eq_zero, h]
  · simp [hc]

theorem count_le_count_map (f : Str → Str) (a : Str) (l : List Str) :
    l.count a ≤ (l.map f).count (f a) := by
  induction l with
  | nil => simp
  | cons x xs ih => by_cases h : x = a <;> simp [List.count_cons, h] <;> omega

theorem hasKey_iff_mem_map (cmd : List Str) (k : Str) :
    hasKey cmd k ↔ k ∈ cmd.map flagKey := by
  simp [hasKey]

/-- The keys a conditional block of `_build_bbduk_cmd` can emit. -/
def condKeys : List Str :=
  [chars "mink", chars "in2", chars "out2", chars "tpe", chars "tbo",
   chars "minoverlap", chars "ref", chars "literal", chars "forcetrimleft",
   chars "forcetrimright", chars "kmask", chars "stats"]

/-- A key no conditional block can emit occurs in a built command exactly as
often as in the unconditional part. -/
theorem count_keys_build (in1 out1 : Str) (in2 out2 : Option Str)
    (p : TrimParams) (stats_fp : Option Str) (k : Str) (hk : k ∉ condKeys) :
    ((_build_bbduk_cmd in1 out1 in2 out2 p stats_fp).map flagKey).count k =
      fixedKeys.count k := by
  simp only [condKeys, List.mem_cons, List.not_mem_nil, or_false, not_or] at hk
  obtain ⟨h1, h2, h3, h4, h5, h6, h7, h8, h9, h10, h11, h12⟩ := hk
  have c1 : (if minkPos p.mink then [chars "mink"] else []).count k = 0 :=
    count_ite_nil _ _ _ (by simp [h1])
  have c2 : (if in2.isSome ∧ out2.isSome then
      [chars "in2", chars "out2"] ++ (if p.tpe then [chars "tpe"] else [])
      ++ (if p.tbo then [chars "tbo", chars "minoverlap"] else [])
      else []).count k = 0 :=
    count_ite_nil _ _ _
      (by simp [List.mem_append, mem_ite_nil, h2, h3, h4, h5, h6])
  have c3 : (if truthyS p.ref then [chars "ref"] else []).count k = 0 :=
    count_ite_nil _ _ _ (by simp [h7])
  have c4 : (if truthyS p.literal then [chars "literal"] else []).count k = 0 :=
    count_ite_nil _ _ _ (by simp [h8])
  have c5 : (if p.forcetrimleft ≠ 0 ∧ 0 < p.forcetrimleft then
      [chars "forcetrimleft"] else []).count k = 0 :=
    count_ite_nil _ _ _ (by simp [h9])
  have c6 : (if p.forcetrimright ≠ 0 ∧ 0 < p.forcetrimright then
      [chars "forcetrimright"] else []).count k = 0 :=
    count_ite_nil _ _ _ (by simp [h10])
  have c7 : (if truthyS p.kmask then [chars "kmask"] else []).count k = 0 :=
    count_ite_nil _ _ _ (by simp [h11])
  have c8 : (if truthyS stats_fp then [chars "stats"] else []).count k = 0 :=
    count_ite_nil _ _ _ (by simp [h12])
  rw [_build_bbduk_cmd_keys]
  simp only [List.count_append]
  rw [c1, c2, c3, c4, c5, c6, c7, c8]
  omega

/-- A flag whose key no conditional block can emit, and whose key occurs once
among the unconditional keys, occurs exactly once in the built command. -/
theorem count_build_of_fixed (in1 out1 : Str) (in2 out2 : Option Str)
    (p : TrimParams) (stats_fp : Option Str) (u : Str)
    (hu : u ∈ _build_bbduk_cmd in1 out1 in2 out2 p stats_fp)
    (hk : flagKey u ∉ condKeys) (hf : fixedKeys.count (flagKey u) = 1) :
    (_build_bbduk_cmd in1 out1 in2 out2 p stats_fp).count u = 1 := by
  have h1 := count_le_count_map flagKey u (_build_bbduk_cmd in1 out1 in2 out2 p stats_fp)
  rw [count_keys_build in1 out1 in2 out2 p stats_fp _ hk, hf] at h1
  have h2 := List.count_pos_iff.mpr hu
  omega

/-- The twelve unconditional flags of `_build_bbduk_cmd`, in emission
order. -/
def unconditionalFlags (in1 out1 : Str) (p : TrimParams) : List Str :=
  [chars "bbduk.sh",
   chars "in=" ++ in1,
   chars "out=" ++ out1,
   chars "k=" ++ chars (toString p.k),
   chars "ktrim=" ++ p.ktrim,
   chars "qtrim=" ++ p.qtrim,
   chars "trimq=" ++ p.trimq,
   chars "minlength=" ++ chars (toString p.minlength),
   chars "threads=" ++ chars (toString p.threads),
   chars "overwrite=" ++ (if p.overwrite then chars "t" else chars "f"),
   chars "ziplevel=2",
   chars "ordered=f"]

theorem build_shape (in1 out1 : Str) (in2 out2 : Option Str)
    (p : TrimParams) (stats_fp : Option Str) :
    _build_bbduk_cmd in1 out1 in2 out2 p stats_fp =
      unconditionalFlags in1 out1 p
      ++ (minkFlag p.mink
          ++ (pairBlock in2 out2 p.tpe p.tbo p.minoverlap
              ++ (optStrFlag (chars "ref") p.ref
                  ++ (optStrFlag (chars "literal") p.literal
                      ++ (posIntFlag (chars "forcetrimleft") p.forcetrimleft
                          ++ (posIntFlag (chars "forcetrimright") p.forcetrimright
                              ++ (optStrFlag (chars "kmask") p.kmask
                                  ++ optStrFlag (chars "stats") stats_fp))))))) := by
  simp [_build_bbduk_cmd, unconditionalFlags, List.append_assoc]

/-! ## Claim theorems: the command builder -/

/-- C2: for every parameter assignment, the built command starts with the
twelve unconditional elements — `bbduk.sh`, `in=`, `out=`, `k=`, `ktrim=`,
`qtrim=`, `trimq=`, `minlength=`, `threads=`, `overwrite=` (`t`/`f`),
`ziplevel=2`, `ordered=f` — in that order, and each of them occurs in the
whole command exactly once, regardless of the other parameter values. -/
theorem build_cmd_unconditional_flags (in1 out1 : Str) (in2 out2 : Option Str)
    (p : TrimParams) (stats_fp : Option Str) :
    (_build_bbduk_cmd in1 out1 in2 out2 p stats_fp).take 12 =
      unconditionalFlags in1 out1 p
    ∧ ∀ u ∈ unconditionalFlags in1 out1 p,
        (_build_bbduk_cmd in1 out1 in2 out2 p stats_fp).count u = 1 := by
  have hshape := build_shape in1 out1 in2 out2 p stats_fp
  have hlen : (unconditionalFlags in1 out1 p).length = 12 := by
    simp [unconditionalFlags]
  have htake : (_build_bbduk_cmd in1 out1 in2 out2 p stats_fp).take 12 =
      unconditionalFlags in1 out1 p := by
    rw [hshape]; exact List.take_left' hlen
  refine ⟨htake, ?_⟩
  intro u hu
  have humem : u ∈ _build_bbduk_cmd in1 out1 in2 out2 p stats_fp := by
    rw [hshape]; exact List.mem_append_left _ hu
  simp only [unconditionalFlags, List.mem_cons, List.not_mem_nil, or_false] at hu
  rcases hu with rfl | rfl | rfl | rfl | rfl | rfl | rfl | rfl | rfl | rfl | rfl | rfl <;>
    refine count_build_of_fixed _ _ _ _ _ _ _ humem ?_ ?_ <;>
      simp only [flagKey_bbduk, flagKey_in, flagKey_out, flagKey_k, flagKey_ktrim,
        flagKey_qtrim, flagKey_trimq, flagKey_minlength, flagKey_threads,
        flagKey_overwrite, flagKey_ziplevel, flagKey_ordered] <;> decide

/-- Witness for C2 at a concrete parameter assignment. -/
theorem build_cmd_unconditional_flags_witness :
    (_build_bbduk_cmd (chars "r1.fq") (chars "out/r1.fq") none none
      _trim_defaults none).count (chars "ziplevel=2") = 1 :=
  (build_cmd_unconditional_flags (chars "r1.fq") (chars "out/r1.fq") none none
    _trim_defaults none).2 (chars "ziplevel=2") (by decide)

/-- C7: `_build_bbduk_cmd` is a total, pure data transformation: for every
typed parameter assignment (all optional values may be absent) it returns a
command list, namely the twelve unconditional flags followed by the
conditional blocks. -/
theorem build_cmd_total (in1 out1 : Str) (in2 out2 : Option Str)
    (p : TrimParams) (stats_fp : Option Str) :
    ∃ rest, _build_bbduk_cmd in1 out1 in2 out2 p stats_fp =
      unconditionalFlags in1 out1 p ++ rest :=
  ⟨_, build_shape in1 out1 in2 out2 p stats_fp⟩

/-! ## Key membership in a built command -/

theorem minkPos_iff (o : Option Int) :
    minkPos o = true ↔ ∃ m, o = some m ∧ 0 < m := by
  rcases o with _ | m <;> simp [minkPos]

theorem truthyS_iff (o : Option Str) :
    truthyS o = true ↔ ∃ s, o = some s ∧ s ≠ [] := by
  rcases o with _ | s <;> simp [truthyS, List.isEmpty_iff]

theorem hasKey_build_mink (in1 out1 : Str) (in2 out2 : Option Str)
    (p : TrimParams) (stats_fp : Option Str) :
    hasKey (_build_bbduk_cmd in1 out1 in2 out2 p stats_fp) (chars "mink") ↔
      minkPos p.mink = true := by
  rw [hasKey_iff_mem_map, _build_bbduk_cmd_keys]
  simp +decide [List.mem_append, mem_ite_nil, fixedKeys]

theorem hasKey_build_ref (in1 out1 : Str) (in2 out2 : Option Str)
    (p : TrimParams) (stats_fp : Option Str) :
    hasKey (_build_bbduk_cmd in1 out1 in2 out2 p stats_fp) (chars "ref") ↔
      truthyS p.ref = true := by
  rw [hasKey_iff_mem_map, _build_bbduk_cmd_keys]
  simp +decide [List.mem_append, mem_ite_nil, fixedKeys]

theorem hasKey_build_lit (in1 out1 : Str) (in2 out2 : Option Str)
    (p : TrimParams) (stats_fp : Option Str) :
    hasKey (_build_bbduk_cmd in1 out1 in2 out2 p stats_fp) (chars "literal") ↔
      truthyS p.literal = true := by
  rw [hasKey_iff_mem_map, _build_bbduk_cmd_keys]
  simp +decide [List.mem_append, mem_ite_nil, fixedKeys]

theorem hasKey_build_ftl (in1 out1 : Str) (in2 out2 : Option Str)
    (p : TrimParams) (stats_fp : Option Str) :
    hasKey (_build_bbduk_cmd in1 out1 in2 out2 p stats_fp) (chars "forcetrimleft") ↔
      p.forcetrimleft ≠ 0 ∧ 0 < p.forcetrimleft := by
  rw [hasKey_iff_mem_map, _build_bbduk_cmd_keys]
  simp +decide [List.mem_append, mem_ite_nil, fixedKeys]

theorem hasKey_build_ftr (in1 out1 : Str) (in2 out2 : Option Str)
    (p : TrimParams) (stats_fp : Option Str) :
    hasKey (_build_bbduk_cmd in1 out1 in2 out2 p stats_fp) (chars "forcetrimright") ↔
      p.forcetrimright ≠ 0 ∧ 0 < p.forcetrimright := by
  rw [hasKey_iff_mem_map, _build_bbduk_cmd_keys]
  simp +decide [List.mem_append, mem_ite_nil, fixedKeys]

theorem hasKey_build_kmask (in1 out1 : Str) (in2 out2 : Option Str)
    (p : TrimParams) (stats_fp : Option Str) :
    hasKey (_build_bbduk_cmd in1 out1 in2 out2 p stats_fp) (chars "kmask") ↔
      truthyS p.kmask = true := by
  rw [hasKey_iff_mem_map, _build_bbduk_cmd_keys]
  simp +decide [List.mem_append, mem_ite_nil, fixedKeys]

theorem hasKey_build_stats (in1 out1 : Str) (in2 out2 : Option Str)
    (p : TrimParams) (stats_fp : Option Str) :
    hasKey (_build_bbduk_cmd in1 out1 in2 out2 p stats_fp) (chars "stats") ↔
      truthyS stats_fp = true := by
  rw [hasKey_iff_mem_map, _build_bbduk_cmd_keys]
  simp +decide [List.mem_append, mem_ite_nil, fixedKeys]

theorem hasKey_build_in2 (in1 out1 : Str) (in2 out2 : Option Str)
    (p : TrimParams) (stats_fp : Option Str) :
    hasKey (_build_bbduk_cmd in1 out1 in2 out2 p stats_fp) (chars "in2") ↔
      in2.isSome = true ∧ out2.isSome = true := by
  rw [hasKey_iff_mem_map, _build_bbduk_cmd_keys]
  simp +decide [List.mem_append, mem_ite_nil, fixedKeys]

theorem hasKey_build_out2 (in1 out1 : Str) (in2 out2 : Option Str)
    (p : TrimParams) (stats_fp : Option Str) :
    hasKey (_build_bbduk_cmd in1 out1 in2 out2 p stats_fp) (chars "out2") ↔
      in2.isSome = true ∧ out2.isSome = true := by
  rw [hasKey_iff_mem_map, _build_bbduk_cmd_keys]
  simp +decide [List.mem_append, mem_ite_nil, fixedKeys]

theorem hasKey_build_tpe (in1 out1 : Str) (in2 out2 : Option Str)
    (p : TrimParams) (stats_fp : Option Str) :
    hasKey (_build_bbduk_cmd in1 out1 in2 out2 p stats_fp) (chars "tpe") ↔
      (in2.isSome = true ∧ out2.isSome = true) ∧ p.tpe = true := by
  rw [hasKey_iff_mem_map, _build_bbduk_cmd_keys]
  simp +decide [List.mem_append, mem_ite_nil, fixedKeys]

theorem hasKey_build_tbo (in1 out1 : Str) (in2 out2 : Option Str)
    (p : TrimParams) (stats_fp : Option Str) :
    hasKey (_build_bbduk_cmd in1 out1 in2 out2 p stats_fp) (chars "tbo") ↔
      (in2.isSome = true ∧ out2.isSome = true) ∧ p.tbo = true := by
  rw [hasKey_iff_mem_map, _build_bbduk_cmd_keys]
  simp +decide [List.mem_append, mem_ite_nil, fixedKeys]

theorem hasKey_build_minoverlap (in1 out1 : Str) (in2 out2 : Option Str)
    (p : TrimParams) (stats_fp : Option Str) :
    hasKey (_build_bbduk_cmd in1 out1 in2 out2 p stats_fp) (chars "minoverlap") ↔
      (in2.isSome = true ∧ out2.isSome = true) ∧ p.tbo = true := by
  rw [hasKey_iff_mem_map, _build_bbduk_cmd_keys]
  simp +decide [List.mem_append, mem_ite_nil, fixedKeys]

theorem mem_build_mink_val (in1 out1 : Str) (in2 out2 : Option Str)
    (p : TrimParams) (stats_fp : Option Str) (m : Int)
    (hm : p.mink = some m) (hpos : 0 < m) :
    chars "mink=" ++ chars (toString m) ∈
      _build_bbduk_cmd in1 out1 in2 out2 p stats_fp := by
  rw [build_shape]
  exact List.mem_append_right _
    (List.mem_append_left _ (by simp [minkFlag, hm, hpos]))

/-- C1 (amended): each conditional flag appears iff its guard holds —
`mink` iff supplied and positive (and then with the supplied value),
`ref` / `literal` / `kmask` / `stats` iff the value is present and
non-empty, and `forcetrimleft` / `forcetrimright` iff the value is
positive (for the registration layer's non-negative domain this is the
claim's "non-zero"). -/
theorem build_cmd_conditional_flags (in1 out1 : Str) (in2 out2 : Option Str)
    (p : TrimParams) (stats_fp : Option Str) :
    (hasKey (_build_bbduk_cmd in1 out1 in2 out2 p stats_fp) (chars "mink") ↔
        ∃ m, p.mink = some m ∧ 0 < m)
    ∧ (∀ m, p.mink = some m → 0 < m →
        chars "mink=" ++ chars (toString m) ∈
          _build_bbduk_cmd in1 out1 in2 out2 p stats_fp)
    ∧ (hasKey (_build_bbduk_cmd in1 out1 in2 out2 p stats_fp) (chars "ref") ↔
        ∃ s, p.ref = some s ∧ s ≠ [])
    ∧ (hasKey (_build_bbduk_cmd in1 out1 in2 out2 p stats_fp) (chars "literal") ↔
        ∃ s, p.literal = some s ∧ s ≠ [])
    ∧ (hasKey (_build_bbduk_cmd in1 out1 in2 out2 p stats_fp) (chars "forcetrimleft") ↔
        0 < p.forcetrimleft)
    ∧ (hasKey (_build_bbduk_cmd in1 out1 in2 out2 p stats_fp) (chars "forcetrimright") ↔
        0 < p.forcetrimright)
    ∧ (hasKey (_build_bbduk_cmd in1 out1 in2 out2 p stats_fp) (chars "kmask") ↔
        ∃ s, p.kmask = some s ∧ s ≠ [])
    ∧ (hasKey (_build_bbduk_cmd in1 out1 in2 out2 p stats_fp) (chars "stats") ↔
        ∃ s, stats_fp = some s ∧ s ≠ []) := by
  refine ⟨?_, ?_, ?_, ?_, ?_, ?_, ?_, ?_⟩
  · rw [hasKey_build_mink, minkPos_iff]
  · exact fun m hm hpos => mem_build_mink_val in1 out1 in2 out2 p stats_fp m hm hpos
  · rw [hasKey_build_ref, truthyS_iff]
  · rw [hasKey_build_lit, truthyS_iff]
  · rw [hasKey_build_ftl]; omega
  · rw [hasKey_build_ftr]; omega
  · rw [hasKey_build_kmask, truthyS_iff]
  · rw [hasKey_build_stats, truthyS_iff]

/-- Witness for C1's amended statement: `mink = 5` makes `mink=5` appear. -/
theorem build_cmd_conditional_flags_witness :
    chars "mink=" ++ chars (toString (5 : Int)) ∈
      _build_bbduk_cmd (chars "r1.fq") (chars "o.fq") none none
        { _trim_defaults with mink := some 5 } none :=
  (build_cmd_conditional_flags (chars "r1.fq") (chars "o.fq") none none
    { _trim_defaults with mink := some 5 } none).2.1 5 rfl (by decide)

/-- Counterexample to C1 as stated: `forcetrimleft = -1` is non-zero, yet
no `forcetrimleft` flag is emitted (the code's guard demands a positive
value, not merely a non-zero one). -/
theorem build_cmd_conditional_flags_cex :
    (-1 : Int) ≠ 0 ∧
    ¬ hasKey (_build_bbduk_cmd (chars "r1.fq") (chars "o.fq") none none
        { _trim_defaults with forcetrimleft := -1 } none)
      (chars "forcetrimleft") := by
  decide

/-- C5: the second input/output flags and the pair-aware flags appear only
when a reverse read was supplied: with `in2` or `out2` absent, none of
`in2=`, `out2=`, `tpe`, `tbo`, `minoverlap` occurs in the built command. -/
theorem build_cmd_pair_flags_need_reverse (in1 out1 : Str) (in2 out2 : Option Str)
    (p : TrimParams) (stats_fp : Option Str) (h : in2 = none ∨ out2 = none) :
    ¬ hasKey (_build_bbduk_cmd in1 out1 in2 out2 p stats_fp) (chars "in2")
    ∧ ¬ hasKey (_build_bbduk_cmd in1 out1 in2 out2 p stats_fp) (chars "out2")
    ∧ ¬ hasKey (_build_bbduk_cmd in1 out1 in2 out2 p stats_fp) (chars "tpe")
    ∧ ¬ hasKey (_build_bbduk_cmd in1 out1 in2 out2 p stats_fp) (chars "tbo")
    ∧ ¬ hasKey (_build_bbduk_cmd in1 out1 in2 out2 p stats_fp) (chars "minoverlap") := by
  have hcond : ¬ (in2.isSome = true ∧ out2.isSome = true) := by
    rcases h with h | h <;> subst h <;> simp
  refine ⟨?_, ?_, ?_, ?_, ?_⟩
  · rw [hasKey_build_in2]; exact hcond
  · rw [hasKey_build_out2]; exact hcond
  · rw [hasKey_build_tpe]; exact fun hx => hcond hx.1
  · rw [hasKey_build_tbo]; exact fun hx => hcond hx.1
  · rw [hasKey_build_minoverlap]; exact fun hx => hcond hx.1

/-- Witness for C5 at a concrete single-end command. -/
theorem build_cmd_pair_flags_need_reverse_witness :
    ¬ hasKey (_build_bbduk_cmd (chars "r1.fq") (chars "o.fq") none none
        _trim_defaults none) (chars "in2")
    ∧ ¬ hasKey (_build_bbduk_cmd (chars "r1.fq") (chars "o.fq") none none
        _trim_defaults none) (chars "out2")
    ∧ ¬ hasKey (_build_bbduk_cmd (chars "r1.fq") (chars "o.fq") none none
        _trim_defaults none) (chars "tpe")
    ∧ ¬ hasKey (_build_bbduk_cmd (chars "r1.fq") (chars "o.fq") none none
        _trim_defaults none) (chars "tbo")
    ∧ ¬ hasKey (_build_bbduk_cmd (chars "r1.fq") (chars "o.fq") none none
        _trim_defaults none) (chars "minoverlap") :=
  build_cmd_pair_flags_need_reverse (chars "r1.fq") (chars "o.fq") none none
    _trim_defaults none (Or.inl rfl)

/-! ## Batch execution -/

theorem run_commands_all_zero (cmds : List (List Str)) :
    run_commands (fun _ => 0) cmds = (cmds, true) := by
  induction cmds with
  | nil => rfl
  | cons c cs ih => simp [run_commands, ih]

/-- C4: if the subprocess for command `i` exits non-zero while all earlier
commands exit zero, `run_commands` invokes exactly commands `0..i` in order
and raises; the commands after `i` are never invoked, with no retry. -/
theorem run_commands_aborts (exitCode : List Str → Int)
    (cmds : List (List Str)) (i : Nat) (h : i < cmds.length)
    (hprev : ∀ j (hj : j < i), exitCode (cmds.get ⟨j, Nat.lt_trans hj h⟩) = 0)
    (hfail : exitCode (cmds.get ⟨i, h⟩) ≠ 0) :
    run_commands exitCode cmds = (cmds.take (i + 1), false) := by
  induction cmds generalizing i with
  | nil => simp at h
  | cons c cs ih =>
      cases i with
      | zero =>
          have hf : exitCode c ≠ 0 := hfail
          simp [run_commands, hf]
      | succ n =>
          have h0 : exitCode c = 0 := hprev 0 (Nat.succ_pos n)
          have hn : n < cs.length := Nat.lt_of_succ_lt_succ h
          have ih2 := ih n hn (fun j hj => hprev (j + 1) (Nat.succ_lt_succ hj)) hfail
          simp [run_commands, h0, ih2]

/-- Witness for C4: with five commands and the third exiting non-zero,
exactly the first three are invoked and the batch raises. -/
theorem run_commands_aborts_witness :
    run_commands (fun c => if c = [chars "c3"] then 1 else 0)
      [[chars "c1"], [chars "c2"], [chars "c3"], [chars "c4"], [chars "c5"]] =
      ([[chars "c1"], [chars "c2"], [chars "c3"], [chars "c4"],
        [chars "c5"]].take (2 + 1), false) :=
  run_commands_aborts (fun c => if c = [chars "c3"] then 1 else 0)
    [[chars "c1"], [chars "c2"], [chars "c3"], [chars "c4"], [chars "c5"]] 2
    (by decide) (by decide) (by decide)

/-! ## Driver batches -/

theorem build_out_at_two (in1 out1 : Str) (in2 out2 : Option Str)
    (p : TrimParams) (stats_fp : Option Str) :
    (_build_bbduk_cmd in1 out1 in2 out2 p stats_fp)[2]? =
      some (chars "out=" ++ out1) := rfl

theorem trim_single_out_map (outDir td : Str) (manifest : List Str)
    (k : Int) (ktrim : Str) (mink : Option Int) (qtrim trimq : Str)
    (minlength : Int) (ref lit : Option Str) (ftl ftr : Int)
    (kmask : Option Str) (threads : Int) :
    (trim_single outDir td manifest k ktrim mink qtrim trimq minlength
        ref lit ftl ftr kmask threads).map (fun c => (c)[2]?) =
      manifest.map (fun fwd => some (chars "out=" ++ joinPath outDir (basename fwd))) := by
  simp only [trim_single, List.map_map]
  exact List.map_congr_left (fun fwd _ => build_out_at_two _ _ _ _ _ _)

/-- C3: `trim_single` builds one command per manifest row, in row order;
the `out=` path of the `i`-th command is the output directory joined with
the basename of the `i`-th input; and when every subprocess exits zero the
whole batch is invoked, in that fixed order. -/
theorem trim_single_batch (outDir td : Str) (manifest : List Str)
    (k : Int) (ktrim : Str) (mink : Option Int) (qtrim trimq : Str)
    (minlength : Int) (ref lit : Option Str) (ftl ftr : Int)
    (kmask : Option Str) (threads : Int) :
    (trim_single outDir td manifest k ktrim mink qtrim trimq minlength
        ref lit ftl ftr kmask threads).length = manifest.length
    ∧ (trim_single outDir td manifest k ktrim mink qtrim trimq minlength
        ref lit ftl ftr kmask threads).map (fun c => (c)[2]?) =
        manifest.map (fun fwd => some (chars "out=" ++ joinPath outDir (basename fwd)))
    ∧ run_commands (fun _ => 0)
        (trim_single outDir td manifest k ktrim mink qtrim trimq minlength
          ref lit ftl ftr kmask threads) =
        (trim_single outDir td manifest k ktrim mink qtrim trimq minlength
          ref lit ftl ftr kmask threads, true) :=
  ⟨by simp [trim_single],
   trim_single_out_map outDir td manifest k ktrim mink qtrim trimq minlength
     ref lit ftl ftr kmask threads,
   run_commands_all_zero _⟩

theorem hasKey_build_fixed (in1 out1 : Str) (in2 out2 : Option Str)
    (p : TrimParams) (stats_fp : Option Str) (k : Str) (hk : k ∈ fixedKeys) :
    hasKey (_build_bbduk_cmd in1 out1 in2 out2 p stats_fp) k := by
  rw [hasKey_iff_mem_map, _build_bbduk_cmd_keys]
  simp [List.mem_append, hk]

theorem mem_build_tpe_t (in1 out1 i2 o2 : Str) (p : TrimParams)
    (stats_fp : Option Str) :
    chars "tpe=t" ∈ _build_bbduk_cmd in1 out1 (some i2) (some o2) p stats_fp ↔
      p.tpe = true := by
  constructor
  · intro hmem
    have hk : hasKey (_build_bbduk_cmd in1 out1 (some i2) (some o2) p stats_fp)
        (chars "tpe") := ⟨chars "tpe=t", hmem, by decide⟩
    rw [hasKey_build_tpe] at hk
    exact hk.2
  · intro h
    rw [build_shape]
    refine List.mem_append_right _ (List.mem_append_right _
      (List.mem_append_left _ ?_))
    simp [pairBlock, h]

theorem mem_build_tbo_t (in1 out1 i2 o2 : Str) (p : TrimParams)
    (stats_fp : Option Str) :
    (chars "tbo=t" ∈ _build_bbduk_cmd in1 out1 (some i2) (some o2) p stats_fp
      ∧ chars "minoverlap=" ++ chars (toString p.minoverlap) ∈
          _build_bbduk_cmd in1 out1 (some i2) (some o2) p stats_fp) ↔
      p.tbo = true := by
  constructor
  · rintro ⟨hmem, -⟩
    have hk : hasKey (_build_bbduk_cmd in1 out1 (some i2) (some o2) p stats_fp)
        (chars "tbo") := ⟨chars "tbo=t", hmem, by decide⟩
    rw [hasKey_build_tbo] at hk
    exact hk.2
  · intro h
    constructor <;>
      (rw [build_shape]
       refine List.mem_append_right _ (List.mem_append_right _
         (List.mem_append_left _ ?_))
       simp [pairBlock, h])

/-- C6: `trim_paired` builds one command per manifest row, each carrying
the two input and two output path flags; `tpe=t` appears iff `tpe` is
enabled, and `tbo=t` together with `minoverlap=` appears iff `tbo` is
enabled; under all-zero exits the whole batch is invoked in order. -/
theorem trim_paired_batch (outDir td : Str) (manifest : List (Str × Str))
    (k : Int) (ktrim : Str) (mink : Option Int) (qtrim trimq : Str)
    (minlength : Int) (tpe tbo : Bool) (minoverlap : Int)
    (ref lit : Option Str) (ftl ftr : Int) (kmask : Option Str)
    (threads : Int) :
    (trim_paired outDir td manifest k ktrim mink qtrim trimq minlength tpe tbo
        minoverlap ref lit ftl ftr kmask threads).length = manifest.length
    ∧ (∀ cmd ∈ trim_paired outDir td manifest k ktrim mink qtrim trimq
          minlength tpe tbo minoverlap ref lit ftl ftr kmask threads,
        hasKey cmd (chars "in") ∧ hasKey cmd (chars "out")
        ∧ hasKey cmd (chars "in2") ∧ hasKey cmd (chars "out2")
        ∧ (chars "tpe=t" ∈ cmd ↔ tpe = true)
        ∧ ((chars "tbo=t" ∈ cmd ∧
            chars "minoverlap=" ++ chars (toString minoverlap) ∈ cmd) ↔
            tbo = true))
    ∧ run_commands (fun _ => 0)
        (trim_paired outDir td manifest k ktrim mink qtrim trimq minlength tpe
          tbo minoverlap ref lit ftl ftr kmask threads) =
        (trim_paired outDir td manifest k ktrim mink qtrim trimq minlength tpe
          tbo minoverlap ref lit ftl ftr kmask threads, true) := by
  refine ⟨by simp [trim_paired], ?_, run_commands_all_zero _⟩
  intro cmd hcmd
  simp only [trim_paired, List.mem_map] at hcmd
  obtain ⟨row, hrow, rfl⟩ := hcmd
  refine ⟨hasKey_build_fixed _ _ _ _ _ _ _ (by decide),
          hasKey_build_fixed _ _ _ _ _ _ _ (by decide), ?_, ?_, ?_, ?_⟩
  · rw [hasKey_build_in2]; exact ⟨rfl, rfl⟩
  · rw [hasKey_build_out2]; exact ⟨rfl, rfl⟩
  · exact mem_build_tpe_t _ _ _ _ _ _
  · exact mem_build_tbo_t _ _ _ _ _ _

/-- Witness for C6 on a one-row paired manifest with `tpe` and `tbo`
enabled. -/
theorem trim_paired_batch_witness :
    hasKey ((trim_paired (chars "o") (chars "t") [(chars "a_1.fq", chars "a_2.fq")]
        27 (chars "f") none (chars "f") (chars "6.0") 10 true true 14 none none
        0 0 none 1).getD 0 []) (chars "in2") :=
  ((trim_paired_batch (chars "o") (chars "t") [(chars "a_1.fq", chars "a_2.fq")]
      27 (chars "f") none (chars "f") (chars "6.0") 10 true true 14 none none
      0 0 none 1).2.1
    ((trim_paired (chars "o") (chars "t") [(chars "a_1.fq", chars "a_2.fq")]
        27 (chars "f") none (chars "f") (chars "6.0") 10 true true 14 none none
        0 0 none 1).getD 0 []) (by decide)).2.2.1

theorem mem_build_overwrite (in1 out1 : Str) (in2 out2 : Option Str)
    (p : TrimParams) (stats_fp : Option Str) (h : p.overwrite = true) :
    chars "overwrite=t" ∈ _build_bbduk_cmd in1 out1 in2 out2 p stats_fp := by
  rw [build_shape]
  exact List.mem_append_left _ (by simp +decide [unconditionalFlags, h])

/-- C9: neither driver exposes `overwrite`, so the default `True` is always
in effect: every command either driver builds carries `overwrite=t`. -/
theorem trim_overwrite_always (outDir td : Str) (manifest : List Str)
    (k : Int) (ktrim : Str) (mink : Option Int) (qtrim trimq : Str)
    (minlength : Int) (ref lit : Option Str) (ftl ftr : Int)
    (kmask : Option Str) (threads : Int)
    (outDirP tdP : Str) (manifestP : List (Str × Str))
    (kP : Int) (ktrimP : Str) (minkP : Option Int) (qtrimP trimqP : Str)
    (minlengthP : Int) (tpeP tboP : Bool) (minoverlapP : Int)
    (refP litP : Option Str) (ftlP ftrP : Int) (kmaskP : Option Str)
    (threadsP : Int) :
    (∀ cmd ∈ trim_single outDir td manifest k ktrim mink qtrim trimq minlength
        ref lit ftl ftr kmask threads, chars "overwrite=t" ∈ cmd)
    ∧ (∀ cmd ∈ trim_paired outDirP tdP manifestP kP ktrimP minkP qtrimP trimqP
        minlengthP tpeP tboP minoverlapP refP litP ftlP ftrP kmaskP threadsP,
        chars "overwrite=t" ∈ cmd) := by
  refine ⟨?_, ?_⟩ <;>
    · intro cmd hcmd
      simp only [trim_single, trim_paired, List.mem_map] at hcmd
      obtain ⟨x, hx, rfl⟩ := hcmd
      exact mem_build_overwrite _ _ _ _ _ _ rfl

/-- Witness for C9 on a one-row single-end manifest. -/
theorem trim_overwrite_always_witness :
    chars "overwrite=t" ∈ (trim_single (chars "o") (chars "t") [chars "a.fq"]
      27 (chars "f") none (chars "f") (chars "6.0") 10 none none 0 0 none
      1).getD 0 [] :=
  (trim_overwrite_always (chars "o") (chars "t") [chars "a.fq"] 27 (chars "f")
      none (chars "f") (chars "6.0") 10 none none 0 0 none 1
      (chars "o") (chars "t") [] 27 (chars "f") none (chars "f") (chars "6.0")
      10 false false 14 none none 0 0 none 1).1
    ((trim_single (chars "o") (chars "t") [chars "a.fq"] 27 (chars "f") none
      (chars "f") (chars "6.0") 10 none none 0 0 none 1).getD 0 [])
    (by decide)

/-- C10: output paths depend only on input basenames — two single-end rows
with equal input basenames get identical `out=` paths, and a paired row
whose forward and reverse reads share a basename gets `out=` and `out2=`
pointing at the same path; distinct basenames are needed for the 1:1
input/output correspondence. -/
theorem trim_duplicate_basenames_collide (outDir td : Str) (manifest : List Str)
    (k : Int) (ktrim : Str) (mink : Option Int) (qtrim trimq : Str)
    (minlength : Int) (ref lit : Option Str) (ftl ftr : Int)
    (kmask : Option Str) (threads : Int) (i j : Nat)
    (hi : i < manifest.length) (hj : j < manifest.length)
    (hb : basename (manifest.get ⟨i, hi⟩) = basename (manifest.get ⟨j, hj⟩))
    (outDirP tdP : Str) (manifestP : List (Str × Str))
    (kP : Int) (ktrimP : Str) (minkP : Option Int) (qtrimP trimqP : Str)
    (minlengthP : Int) (tpeP tboP : Bool) (minoverlapP : Int)
    (refP litP : Option Str) (ftlP ftrP : Int) (kmaskP : Option Str)
    (threadsP : Int) (fwd rev : Str) (hmem : (fwd, rev) ∈ manifestP)
    (hbp : basename fwd = basename rev) :
    ((trim_single outDir td manifest k ktrim mink qtrim trimq minlength
        ref lit ftl ftr kmask threads)[i]?).map (fun c => (c)[2]?) =
    ((trim_single outDir td manifest k ktrim mink qtrim trimq minlength
        ref lit ftl ftr kmask threads)[j]?).map (fun c => (c)[2]?)
    ∧ ∃ cmd ∈ trim_paired outDirP tdP manifestP kP ktrimP minkP qtrimP trimqP
        minlengthP tpeP tboP minoverlapP refP litP ftlP ftrP kmaskP threadsP,
        chars "out=" ++ joinPath outDirP (basename fwd) ∈ cmd
        ∧ chars "out2=" ++ joinPath outDirP (basename fwd) ∈ cmd := by
  constructor
  · have hi2 : manifest[i]? = some (manifest.get ⟨i, hi⟩) :=
      List.getElem?_eq_getElem hi
    have hj2 : manifest[j]? = some (manifest.get ⟨j, hj⟩) :=
      List.getElem?_eq_getElem hj
    simp only [trim_single, List.getElem?_map, hi2, hj2, Option.map_some']
    rw [build_out_at_two, build_out_at_two, hb]
  · have h1 : chars "out=" ++ joinPath outDirP (basename fwd) ∈
        _build_bbduk_cmd fwd (joinPath outDirP (basename fwd))
          (some rev) (some (joinPath outDirP (basename rev)))
          { _trim_defaults with
              threads := threadsP, k := kP, ktrim := ktrimP, mink := minkP,
              qtrim := qtrimP, trimq := trimqP, minlength := minlengthP,
              tpe := tpeP, tbo := tboP, minoverlap := minoverlapP,
              ref := refP, literal := litP,
              forcetrimleft := ftlP, forcetrimright := ftrP,
              kmask := kmaskP }
          (some (joinPath tdP (basename fwd ++ chars ".bbduk.stats.txt"))) := by
      rw [build_shape]
      exact List.mem_append_left _ (by simp [unconditionalFlags])
    have h2 : chars "out2=" ++ joinPath outDirP (basename rev) ∈
        _build_bbduk_cmd fwd (joinPath outDirP (basename fwd))
          (some rev) (some (joinPath outDirP (basename rev)))
          { _trim_defaults with
              threads := threadsP, k := kP, ktrim := ktrimP, mink := minkP,
              qtrim := qtrimP, trimq := trimqP, minlength := minlengthP,
              tpe := tpeP, tbo := tboP, minoverlap := minoverlapP,
              ref := refP, literal := litP,
              forcetrimleft := ftlP, forcetrimright := ftrP,
              kmask := kmaskP }
          (some (joinPath tdP (basename fwd ++ chars ".bbduk.stats.txt"))) := by
      rw [build_shape]
      refine List.mem_append_right _ (List.mem_append_right _
        (List.mem_append_left _ ?_))
      simp [pairBlock]
    have h2' : chars "out2=" ++ joinPath outDirP (basename fwd) ∈
        _build_bbduk_cmd fwd (joinPath outDirP (basename fwd))
          (some rev) (some (joinPath outDirP (basename rev)))
          { _trim_defaults with
              threads := threadsP, k := kP, ktrim := ktrimP, mink := minkP,
              qtrim := qtrimP, trimq := trimqP, minlength := minlengthP,
              tpe := tpeP, tbo := tboP, minoverlap := minoverlapP,
              ref := refP, literal := litP,
              forcetrimleft := ftlP, forcetrimright := ftrP,
              kmask := kmaskP }
          (some (joinPath tdP (basename fwd ++ chars ".bbduk.stats.txt"))) := by
      have heq : chars "out2=" ++ joinPath outDirP (basename fwd) =
          chars "out2=" ++ joinPath outDirP (basename rev) := by rw [hbp]
      rw [heq]; exact h2
    refine ⟨_, List.mem_map_of_mem _ hmem, ?_, ?_⟩
    · exact h1
    · exact h2'

/-- Witness for C10: two rows named `x.fq` in different directories, and a
paired row whose mates share the basename `s.fq`. -/
theorem trim_duplicate_basenames_collide_witness :
    ((trim_single (chars "o") (chars "t") [chars "a/x.fq", chars "b/x.fq"]
        27 (chars "f") none (chars "f") (chars "6.0") 10 none none 0 0 none
        1)[0]?).map (fun c => (c)[2]?) =
    ((trim_single (chars "o") (chars "t") [chars "a/x.fq", chars "b/x.fq"]
        27 (chars "f") none (chars "f") (chars "6.0") 10 none none 0 0 none
        1)[1]?).map (fun c => (c)[2]?)
    ∧ ∃ cmd ∈ trim_paired (chars "o") (chars "t")
        [(chars "d/s.fq", chars "e/s.fq")] 27 (chars "f") none (chars "f")
        (chars "6.0") 10 false false 14 none none 0 0 none 1,
        chars "out=" ++ joinPath (chars "o") (basename (chars "d/s.fq")) ∈ cmd
        ∧ chars "out2=" ++ joinPath (chars "o") (basename (chars "d/s.fq")) ∈ cmd :=
  trim_duplicate_basenames_collide (chars "o") (chars "t")
    [chars "a/x.fq", chars "b/x.fq"] 27 (chars "f") none (chars "f")
    (chars "6.0") 10 none none 0 0 none 1 0 1 (by decide) (by decide)
    (by decide) (chars "o") (chars "t") [(chars "d/s.fq", chars "e/s.fq")]
    27 (chars "f") none (chars "f") (chars "6.0") 10 false false 14 none none
    0 0 none 1 (chars "d/s.fq") (chars "e/s.fq") (by decide) (by decide)

/-! ## Plugin registration (`plugin_setup.py`) -/

/-- The qiime2 parameter-type vocabulary used by `plugin_setup.py`:
`Int % Range(lo, None)` (inclusive lower bound), `Float % Range(lo, None,
inclusive_start=True)`, `Str % Choices([...])`, plain `Str`, `Bool` and
`Threads`. -/
inductive QType : Type
  | intRange (lo : Int)
  | floatRangeIncl (lo : Int)
  | strChoices (cs : List Str)
  | str
  | bool
  | threads
deriving DecidableEq

/-- A parameter value as the registration layer sees it (the Python float
is embedded as a rational). -/
inductive QVal : Type
  | int (n : Int)
  | float (q : ℚ)
  | str (s : Str)
  | bool (b : Bool)

/-- Modelled from the spec: the host framework's validation of a declared
parameter constraint ("values failing these constraints are rejected by the
framework prior to any subprocess construction", spec §4.3) is outside this
repository; a `Range(lo, None)` accepts exactly the values at least `lo`,
a `Choices` list exactly its members, and the unconstrained types any value
of their kind. -/
def accepts (t : QType) (v : QVal) : Bool :=
  match t, v with
  | .intRange lo, .int n => decide (lo ≤ n)
  | .floatRangeIncl lo, .float q => decide ((lo : ℚ) ≤ q)
  | .strChoices cs, .str s => cs.contains s
  | .str, .str _ => true
  | .bool, .bool _ => true
  | .threads, .int _ => true
  | _, _ => false

/-- The `parameters` dictionary of the single-end registration in
`plugin_setup.py`, in declaration order. -/
def trim_single_parameters : List (Str × QType) :=
  [(chars "k", QType.intRange 1),
   (chars "ktrim", QType.strChoices [chars "f", chars "r", chars "l"]),
   (chars "mink", QType.intRange 0),
   (chars "qtrim", QType.strChoices
      [chars "rl", chars "f", chars "r", chars "l", chars "w"]),
   (chars "trimq", QType.floatRangeIncl 0),
   (chars "minlength", QType.intRange 1),
   (chars "ref", QType.str),
   (chars "literal", QType.str),
   (chars "forcetrimleft", QType.intRange 0),
   (chars "forcetrimright", QType.intRange 0),
   (chars "kmask", QType.str),
   (chars "threads", QType.threads)]

/-- The `parameters` dictionary of the paired-end registration in
`plugin_setup.py`, in declaration order. -/
def trim_paired_parameters : List (Str × QType) :=
  [(chars "k", QType.intRange 1),
   (chars "ktrim", QType.strChoices [chars "f", chars "r", chars "l"]),
   (chars "mink", QType.intRange 0),
   (chars "qtrim", QType.strChoices
      [chars "rl", chars "f", chars "r", chars "l", chars "w"]),
   (chars "trimq", QType.floatRangeIncl 0),
   (chars "minlength", QType.intRange 1),
   (chars "tpe", QType.bool),
   (chars "tbo", QType.bool),
   (chars "minoverlap", QType.intRange 1),
   (chars "ref", QType.str),
   (chars "literal", QType.str),
   (chars "forcetrimleft", QType.intRange 0),
   (chars "forcetrimright", QType.intRange 0),
   (chars "kmask", QType.str),
   (chars "threads", QType.threads)]

/-- C8: both registrations declare `ktrim` over the 3-value enumeration and
`qtrim` over the 5-value enumeration, and bound the numeric parameters
(`k ≥ 1`, `mink ≥ 0`, `trimq ≥ 0`, `minlength ≥ 1`, `minoverlap ≥ 1` on the
paired operation, `forcetrimleft ≥ 0`, `forcetrimright ≥ 0`); under the
declared-constraint semantics exactly the claimed values pass, so anything
outside is rejected before the driver builds a command. -/
theorem registration_constraints :
    (∀ ps ∈ [trim_single_parameters, trim_paired_parameters],
        ps.lookup (chars "ktrim") =
          some (QType.strChoices [chars "f", chars "r", chars "l"])
        ∧ ps.lookup (chars "qtrim") =
          some (QType.strChoices
            [chars "rl", chars "f", chars "r", chars "l", chars "w"])
        ∧ ps.lookup (chars "k") = some (QType.intRange 1)
        ∧ ps.lookup (chars "mink") = some (QType.intRange 0)
        ∧ ps.lookup (chars "trimq") = some (QType.floatRangeIncl 0)
        ∧ ps.lookup (chars "minlength") = some (QType.intRange 1)
        ∧ ps.lookup (chars "forcetrimleft") = some (QType.intRange 0)
        ∧ ps.lookup (chars "forcetrimright") = some (QType.intRange 0))
    ∧ trim_paired_parameters.lookup (chars "minoverlap") =
        some (QType.intRange 1)
    ∧ (∀ s : Str,
        accepts (QType.strChoices [chars "f", chars "r", chars "l"])
            (QVal.str s) = true ↔
          s = chars "f" ∨ s = chars "r" ∨ s = chars "l")
    ∧ (∀ s : Str,
        accepts (QType.strChoices
            [chars "rl", chars "f", chars "r", chars "l", chars "w"])
            (QVal.str s) = true ↔
          s = chars "rl" ∨ s = chars "f" ∨ s = chars "r" ∨ s = chars "l"
          ∨ s = chars "w")
    ∧ (∀ n : Int, accepts (QType.intRange 1) (QVal.int n) = true ↔ 1 ≤ n)
    ∧ (∀ n : Int, accepts (QType.intRange 0) (QVal.int n) = true ↔ 0 ≤ n)
    ∧ (∀ q : ℚ, accepts (QType.floatRangeIncl 0) (QVal.float q) = true ↔
        0 ≤ q) := by
  refine ⟨?_, by decide, ?_, ?_, ?_, ?_, ?_⟩
  · intro ps hps
    simp only [List.mem_cons, List.not_mem_nil, or_false] at hps
    rcases hps with rfl | rfl
    · exact ⟨by decide, by decide, by decide, by decide, by decide, by decide,
        by decide, by decide⟩
    · exact ⟨by decide, by decide, by decide, by decide, by decide, by decide,
        by decide, by decide⟩
  · intro s; simp [accepts]
  · intro s; simp [accepts]
  · intro n; simp [accepts]
  · intro n; simp [accepts]
  · intro q; simp [accepts]

/-- Witness for C8 on the single-end registration's `ktrim` entry. -/
theorem registration_constraints_witness :
    trim_single_parameters.lookup (chars "ktrim") =
      some (QType.strChoices [chars "f", chars "r", chars "l"]) :=
  (registration_constraints.1 trim_single_parameters
    (List.mem_cons_self _ _)).1
